import Mathlib

/-!
Verification of the aws-arn package core (`aws_arn/__init__.py`): the
policy resolver `arn_config`, the literal assembler `arn`, the symbolic
assembler `cloudformation`, and the `split` parser.

The rule table `CONFIG` is loaded from an external `config.json` at
process start; here it is an explicit parameter `cfg : List Rule`.
Python's `re.search` is an external library call; the embedding is
parameterized by a search oracle `search : String → String → Bool`
(pattern, subject).  For metacharacter-free patterns `re.search` is
exactly substring search, provided here as `strSearch` for concrete
evaluation.  The boto3 credentials collaborator is modelled by the
`sessionRegion`/`sessionAccount` oracle values used when a profile is
supplied.
-/

namespace AwsArn

/-- One entry of the `CONFIG['services']` list: keys `service`,
`resource` (optional regex pattern), `region` and `account`
(optional booleans, assumed true if absent). -/
structure Rule where
  service : String
  resource : Option String
  region : Option Bool
  account : Option Bool
deriving DecidableEq, Repr

/-- Python truthiness of an optional string: `None` and `''` are falsy. -/
def pyFalsy : Option String → Bool
  | none => true
  | some s => s.isEmpty

/-- Python truthiness (`if x:`) of an optional string. -/
def pyTruthy (o : Option String) : Bool := !(pyFalsy o)

/-- Python `x or d` for an optional string `x`: the default is used when
`x` is `None` or empty. -/
def pyOrStr (o : Option String) (d : String) : String :=
  match o with
  | none => d
  | some s => if s.isEmpty then d else s

/-- Python string interpolation of an optional value: `None` prints as
the literal text `None`. -/
def optStr : Option String → String
  | none => "None"
  | some s => s

/-- Python `'{:0>12}'.format(s)`: left-pad with `'0'` to width 12. -/
def zeroPad12 (s : String) : String :=
  if s.length < 12 then String.mk (List.replicate (12 - s.length) '0') ++ s else s

/-- `pat` occurs as a contiguous sublist of `s`. -/
def infixOf (pat : List Char) : List Char → Bool
  | [] => pat.isEmpty
  | c :: cs => pat.isPrefixOf (c :: cs) || infixOf pat cs

/-- Substring search on strings: the behaviour of `re.search(pat, s)`
for a metacharacter-free pattern, used to instantiate the search
oracle on concrete inputs. -/
def strSearch (pat s : String) : Bool := infixOf pat.data s.data

/-- The scan loop inside `arn_config`: walk the rule list; a rule whose
`service` differs, or whose `resource` pattern is present but not found
in the resource, is skipped (`continue`); the first remaining rule sets
both booleans (absent keys default to true) and the loop breaks. -/
def lookupConfig (search : String → String → Bool) (service resource : String) :
    List Rule → Bool × Bool
  | [] => (true, true)
  | r :: rest =>
    if r.service == service then
      match r.resource with
      | some pat =>
        if search pat resource then (r.region.getD true, r.account.getD true)
        else lookupConfig search service resource rest
      | none => (r.region.getD true, r.account.getD true)
    else lookupConfig search service resource rest

/-- Python `if force: value = force` on a tri-state flag: only a truthy
(`True`) flag replaces the table-derived boolean; `False` is falsy and
leaves it unchanged. -/
def applyForce (b : Bool) : Option Bool → Bool
  | some true => true
  | some false => b
  | none => b

/-- `arn_config(service, resource, force_region, force_account)`:
table lookup followed by the truthiness-guarded force overrides. -/
def arn_config (search : String → String → Bool) (cfg : List Rule)
    (service resource : String) (force_region force_account : Option Bool) : Bool × Bool :=
  let ra := lookupConfig search service resource cfg
  (applyForce ra.1 force_region, applyForce ra.2 force_account)

/-- A rule applies to `(service, resource)` iff its service name is equal
and its resource pattern, when present, is found in the resource. -/
def ruleApplies (search : String → String → Bool) (r : Rule)
    (service resource : String) : Bool :=
  (r.service == service) &&
    (match r.resource with
     | none => true
     | some pat => search pat resource)

/-- Python `cs.split(sep, maxsplit)` on character lists: at most
`maxsplit` cuts, empty pieces preserved, remainder kept verbatim. -/
def pySplitChars (sep : Char) : Nat → List Char → List (List Char)
  | _, [] => [[]]
  | 0, c :: cs => [c :: cs]
  | n + 1, c :: cs =>
    if c = sep then
      [] :: pySplitChars sep n cs
    else
      let rest := pySplitChars sep (n + 1) cs
      (c :: rest.headD []) :: rest.tail

/-- Python `s.split(sep, maxsplit)` on strings. -/
def pySplit (s : String) (sep : Char) (maxsplit : Nat) : List String :=
  (pySplitChars sep maxsplit s.data).map String.mk

/-- The namedtuple `ARN(partition, service, region, account, resource)`. -/
structure ArnTuple where
  partition : String
  service : String
  region : String
  account : String
  resource : String
deriving DecidableEq, Repr

/-- `_arn_tuple(*parts[1:])`: succeeds only when the split produced
exactly six pieces (head discarded); otherwise the constructor call
raises, modelled as an error. -/
def tupleOfParts : List String → Except String ArnTuple
  | [_, p, s, r, a, res] => Except.ok ⟨p, s, r, a, res⟩
  | _ => Except.error "malformed identifier"

/-- `split(arn)`: `_arn_tuple(*arn.split(':', 5)[1:])`. -/
def split (arn : String) : Except String ArnTuple :=
  tupleOfParts (pySplit arn ':' 5)

/-- The five field values assembled by `arn(...)` before formatting;
`region`/`account` stay `none` (Python `None`) when required, missing,
and not resolvable. -/
structure ArnParts where
  partition : String
  service : String
  region : Option String
  account : Option String
  resource : String
deriving DecidableEq, Repr

/-- Field resolution of `arn(...)`: the region/account branches of the
source, with the boto3 collaborator answers injected as
`sessionRegion`/`sessionAccount`.  Returns the field values and the
`missing` list in source order. -/
def arnParts (search : String → String → Bool) (cfg : List Rule)
    (service resource : String) (region account profile partition : Option String)
    (force_region force_account : Option Bool)
    (sessionRegion sessionAccount : String) : ArnParts × List String :=
  let hasR := (arn_config search cfg service resource force_region force_account).1
  let hasA := (arn_config search cfg service resource force_region force_account).2
  let rpair : Option String × List String :=
    if hasR = false then (some "", [])
    else if pyFalsy region then
      (if pyTruthy profile then (some sessionRegion, []) else (region, ["region"]))
    else (region, [])
  let apair : Option String × List String :=
    if hasA = false then (some "", [])
    else if pyFalsy account then
      (if pyTruthy profile then (some sessionAccount, []) else (account, ["account"]))
    else if account.getD "" ≠ "*" then (some (zeroPad12 (account.getD "")), [])
    else (some "", [])
  (⟨pyOrStr partition "aws", service, rpair.1, apair.1, resource⟩, rpair.2 ++ apair.2)

/-- The final format string
`arn:{partition}:{service}:{region}:{account}:{resource}`. -/
def renderArn (p : ArnParts) : String :=
  "arn:" ++ p.partition ++ ":" ++ p.service ++ ":" ++ optStr p.region ++ ":" ++
    optStr p.account ++ ":" ++ p.resource

/-- `arn(...)`: resolve fields, then `if missing: err(...)`.  Without an
`on_error` callback `err` raises (an error result); with one that
returns normally, execution continues to the format statement. -/
def arn (search : String → String → Bool) (cfg : List Rule)
    (service resource : String) (region account profile partition : Option String)
    (force_region force_account : Option Bool)
    (sessionRegion sessionAccount : String) (onError : Bool) : Except String String :=
  let pm := arnParts search cfg service resource region account profile partition
    force_region force_account sessionRegion sessionAccount
  if pm.2.isEmpty || onError then
    Except.ok (renderArn pm.1)
  else
    Except.error ("Error: " ++ String.intercalate " and " pm.2 ++ " required")

/-- A fragment of the CloudFormation expression: a literal string or a
`Ref` to a named template value. -/
inductive CfnPart where
  | lit (s : String)
  | ref (r : String)
deriving DecidableEq, Repr

/-- The `Fn::Join` node: separator and fragment list. -/
structure FnJoin where
  sep : String
  parts : List CfnPart
deriving DecidableEq, Repr

/-- `if isinstance(resource, six.string_types): resource = [resource]`. -/
def normalizeResource : Sum String (List CfnPart) → List CfnPart
  | Sum.inl s => [CfnPart.lit s]
  | Sum.inr l => l

/-- `resource[0] if isinstance(resource[0], six.string_types) else ''`. -/
def resourceForConfig : CfnPart → String
  | CfnPart.lit s => s
  | CfnPart.ref _ => ""

/-- `cloudformation(service, resource, force_region, force_account)`:
normalize the resource to a list, look up the policy using the first
element, emit the fixed fragments for the four region/account cases,
append the resource parts, and wrap in `Fn::Join` with separator `''`.
Reading `resource[0]` of an empty list raises `IndexError`, modelled as
an error result. -/
def cloudformation (search : String → String → Bool) (cfg : List Rule)
    (service : String) (resource : Sum String (List CfnPart))
    (force_region force_account : Option Bool) : Except String FnJoin :=
  match normalizeResource resource with
  | [] => Except.error "list index out of range"
  | first :: rest =>
    let hasR := (arn_config search cfg service (resourceForConfig first)
      force_region force_account).1
    let hasA := (arn_config search cfg service (resourceForConfig first)
      force_region force_account).2
    let mid : List CfnPart :=
      if hasR && hasA then
        [CfnPart.lit (":" ++ service ++ ":"), CfnPart.ref "AWS::Region", CfnPart.lit ":",
          CfnPart.ref "AWS::AccountId", CfnPart.lit ":"]
      else if hasR then
        [CfnPart.lit (":" ++ service ++ ":"), CfnPart.ref "AWS::Region", CfnPart.lit "::"]
      else if hasA then
        [CfnPart.lit (":" ++ service ++ "::"), CfnPart.ref "AWS::AccountId", CfnPart.lit ":"]
      else
        [CfnPart.lit (":" ++ service ++ ":::")]
    Except.ok ⟨"", [CfnPart.lit "arn:", CfnPart.ref "AWS::Partition"] ++ mid ++ (first :: rest)⟩

/-- Number of occurrences of a character in a character list. -/
def countSep (sep : Char) : List Char → Nat
  | [] => 0
  | c :: cs => (if c = sep then 1 else 0) + countSep sep cs

/-- Rejoin split pieces with the separator between them. -/
def joinSep (sep : Char) : List (List Char) → List Char
  | [] => []
  | [p] => p
  | p :: q :: ps => p ++ sep :: joinSep sep (q :: ps)

theorem pySplitChars_ne_nil (sep : Char) (n : Nat) (cs : List Char) :
    pySplitChars sep n cs ≠ [] := by
  match n, cs with
  | _, [] => simp [pySplitChars]
  | 0, c :: cs => simp [pySplitChars]
  | n + 1, c :: cs => by_cases h : c = sep <;> simp [pySplitChars, h]

theorem pySplitChars_zero (sep : Char) (cs : List Char) :
    pySplitChars sep 0 cs = [cs] := by
  cases cs <;> rfl

theorem pySplitChars_cons_of_noSep (sep : Char) (n : Nat) (rest : List Char) :
    ∀ a : List Char, sep ∉ a →
      pySplitChars sep (n + 1) (a ++ sep :: rest) = a :: pySplitChars sep n rest := by
  intro a
  induction a with
  | nil => intro _; simp [pySplitChars]
  | cons c a ih =>
    intro h
    have hc : ¬(c = sep) := fun he => h (by simp [he])
    have ha : sep ∉ a := fun hm => h (List.mem_cons_of_mem _ hm)
    simp [pySplitChars, hc, ih ha]

theorem pySplitChars_length (sep : Char) :
    ∀ (n : Nat) (cs : List Char),
      (pySplitChars sep n cs).length = min n (countSep sep cs) + 1
  | _, [] => by simp [pySplitChars, countSep]
  | 0, _ :: _ => by simp [pySplitChars]
  | n + 1, c :: cs => by
    by_cases h : c = sep
    · have h1 := pySplitChars_length sep n cs
      simp [pySplitChars, countSep, h, h1]
      omega
    · have h1 := pySplitChars_length sep (n + 1) cs
      have h2 : 0 < (pySplitChars sep (n + 1) cs).length :=
        List.length_pos.mpr (pySplitChars_ne_nil sep (n + 1) cs)
      have h3 : (pySplitChars sep (n + 1) cs).tail.length
          = (pySplitChars sep (n + 1) cs).length - 1 := List.length_tail _
      simp [pySplitChars, countSep, h]
      omega

theorem joinSep_cons_cons (sep c : Char) (q : List Char) (ps : List (List Char)) :
    joinSep sep ((c :: q) :: ps) = c :: joinSep sep (q :: ps) := by
  cases ps <;> simp [joinSep]

theorem joinSep_pySplitChars (sep : Char) :
    ∀ (n : Nat) (cs : List Char), joinSep sep (pySplitChars sep n cs) = cs
  | _, [] => by simp [pySplitChars, joinSep]
  | 0, _ :: _ => by simp [pySplitChars, joinSep]
  | n + 1, c :: cs => by
    by_cases h : c = sep
    · obtain ⟨q, ps, hqp⟩ := List.exists_cons_of_ne_nil (pySplitChars_ne_nil sep n cs)
      have hj := joinSep_pySplitChars sep n cs
      rw [hqp] at hj
      simp [pySplitChars, h, hqp, joinSep, hj]
    · obtain ⟨q, ps, hqp⟩ :=
        List.exists_cons_of_ne_nil (pySplitChars_ne_nil sep (n + 1) cs)
      have hj := joinSep_pySplitChars sep (n + 1) cs
      rw [hqp] at hj
      simp [pySplitChars, h, hqp, joinSep_cons_cons, hj]

theorem dropLast_cons_cons {α : Type} (a b : α) (l : List α) :
    (a :: b :: l).dropLast = a :: (b :: l).dropLast := rfl

theorem pySplitChars_dropLast_noSep (sep : Char) :
    ∀ (n : Nat) (cs p : List Char),
      p ∈ (pySplitChars sep n cs).dropLast → sep ∉ p
  | _, [], p => by simp [pySplitChars]
  | 0, _ :: _, p => by simp [pySplitChars]
  | n + 1, c :: cs, p => by
    by_cases h : c = sep
    · obtain ⟨q, ps, hqp⟩ := List.exists_cons_of_ne_nil (pySplitChars_ne_nil sep n cs)
      intro hmem
      rw [show pySplitChars sep (n + 1) (c :: cs) = [] :: pySplitChars sep n cs by
            simp [pySplitChars, h],
          hqp, dropLast_cons_cons] at hmem
      rcases List.mem_cons.mp hmem with hp | hp
      · simp [hp]
      · exact pySplitChars_dropLast_noSep sep n cs p (hqp ▸ hp)
    · obtain ⟨q, ps, hqp⟩ :=
        List.exists_cons_of_ne_nil (pySplitChars_ne_nil sep (n + 1) cs)
      intro hmem
      rw [show pySplitChars sep (n + 1) (c :: cs)
            = (c :: (pySplitChars sep (n + 1) cs).headD []) ::
              (pySplitChars sep (n + 1) cs).tail by simp [pySplitChars, h],
          hqp] at hmem
      simp only [List.headD_cons, List.tail_cons] at hmem
      cases ps with
      | nil => simp at hmem
      | cons r rs =>
        rw [dropLast_cons_cons] at hmem
        rcases List.mem_cons.mp hmem with hp | hp
        · subst hp
          intro hin
          rcases List.mem_cons.mp hin with hq | hq
          · exact h hq.symm
          · exact pySplitChars_dropLast_noSep sep (n + 1) cs q
              (by rw [hqp, dropLast_cons_cons]; exact List.mem_cons_self _ _) hq
        · exact pySplitChars_dropLast_noSep sep (n + 1) cs p
            (by rw [hqp, dropLast_cons_cons]; exact List.mem_cons_of_mem _ hp)

theorem data_append (a b : String) : (a ++ b).data = a.data ++ b.data := rfl

theorem string_mk_data (s : String) : String.mk s.data = s := rfl

theorem string_ext (a b : String) (h : a.data = b.data) : a = b := by
  cases a; cases b; exact congrArg String.mk h

theorem tupleOfParts_of_len_ne (parts : List String) (h : parts.length ≠ 6) :
    tupleOfParts parts = Except.error "malformed identifier" := by
  match parts, h with
  | [], _ => rfl
  | [_], _ => rfl
  | [_, _], _ => rfl
  | [_, _, _], _ => rfl
  | [_, _, _, _], _ => rfl
  | [_, _, _, _, _], _ => rfl
  | [_, _, _, _, _, _], h => exact (h rfl).elim
  | _ :: _ :: _ :: _ :: _ :: _ :: _ :: _, _ => rfl

theorem tupleOfParts_of_len_eq (parts : List String) (h : parts.length = 6) :
    ∃ t, tupleOfParts parts = Except.ok t := by
  match parts, h with
  | [_, p, s, r, a, res], _ => exact ⟨⟨p, s, r, a, res⟩, rfl⟩

theorem tupleOfParts_ok_shape (parts : List String) (t : ArnTuple)
    (h : tupleOfParts parts = Except.ok t) :
    ∃ head, parts = [head, t.partition, t.service, t.region, t.account, t.resource] := by
  match parts, h with
  | [], h => exact Except.noConfusion h
  | [_], h => exact Except.noConfusion h
  | [_, _], h => exact Except.noConfusion h
  | [_, _, _], h => exact Except.noConfusion h
  | [_, _, _, _], h => exact Except.noConfusion h
  | [_, _, _, _, _], h => exact Except.noConfusion h
  | [x, p, s, r, a, res], h =>
    have ht : ArnTuple.mk p s r a res = t := by
      have h2 : Except.ok (ε := String) (ArnTuple.mk p s r a res) = Except.ok t := h
      injection h2
    exact ⟨x, by rw [← ht]⟩
  | _ :: _ :: _ :: _ :: _ :: _ :: _ :: _, h => exact Except.noConfusion h

theorem pySplitChars_render (P S R A res : List Char)
    (hP : ':' ∉ P) (hS : ':' ∉ S) (hR : ':' ∉ R) (hA : ':' ∉ A) :
    pySplitChars ':' 5
        ('a' :: 'r' :: 'n' :: ':' ::
          (P ++ ':' :: (S ++ ':' :: (R ++ ':' :: (A ++ ':' :: res)))))
      = ['a', 'r', 'n'] :: P :: S :: R :: A :: [res] := by
  have h0 : ('a' :: 'r' :: 'n' :: ':' ::
        (P ++ ':' :: (S ++ ':' :: (R ++ ':' :: (A ++ ':' :: res)))))
      = ['a', 'r', 'n'] ++ ':' ::
        (P ++ ':' :: (S ++ ':' :: (R ++ ':' :: (A ++ ':' :: res)))) := rfl
  rw [h0, pySplitChars_cons_of_noSep _ _ _ _ (by decide),
      pySplitChars_cons_of_noSep _ _ _ _ hP,
      pySplitChars_cons_of_noSep _ _ _ _ hS,
      pySplitChars_cons_of_noSep _ _ _ _ hR,
      pySplitChars_cons_of_noSep _ _ _ _ hA,
      pySplitChars_zero]

theorem split_render (P S R A res : String)
    (hP : ':' ∉ P.data) (hS : ':' ∉ S.data) (hR : ':' ∉ R.data) (hA : ':' ∉ A.data) :
    split ("arn:" ++ P ++ ":" ++ S ++ ":" ++ R ++ ":" ++ A ++ ":" ++ res)
      = Except.ok ⟨P, S, R, A, res⟩ := by
  have hdata : ("arn:" ++ P ++ ":" ++ S ++ ":" ++ R ++ ":" ++ A ++ ":" ++ res).data
      = 'a' :: 'r' :: 'n' :: ':' ::
          (P.data ++ ':' :: (S.data ++ ':' :: (R.data ++ ':' :: (A.data ++ ':' :: res.data)))) := by
    simp [data_append, List.append_assoc]
  unfold split pySplit
  rw [hdata, pySplitChars_render _ _ _ _ _ hP hS hR hA]
  simp [tupleOfParts, string_mk_data]

theorem lookupConfig_find (search : String → String → Bool) (service resource : String) :
    ∀ cfg : List Rule,
      lookupConfig search service resource cfg =
        match cfg.find? (fun r => ruleApplies search r service resource) with
        | some r => (r.region.getD true, r.account.getD true)
        | none => (true, true)
  | [] => rfl
  | r :: rest => by
    cases hs : r.service == service with
    | false =>
      have happ : ruleApplies search r service resource = false := by
        simp [ruleApplies, hs]
      simp [lookupConfig, hs, List.find?, happ,
        lookupConfig_find search service resource rest]
    | true =>
      cases hres : r.resource with
      | none =>
        have happ : ruleApplies search r service resource = true := by
          simp [ruleApplies, hs, hres]
        simp [lookupConfig, hs, hres, List.find?, happ]
      | some pat =>
        cases hp : search pat resource with
        | true =>
          have happ : ruleApplies search r service resource = true := by
            simp [ruleApplies, hs, hres, hp]
          simp [lookupConfig, hs, hres, hp, List.find?, happ]
        | false =>
          have happ : ruleApplies search r service resource = false := by
            simp [ruleApplies, hs, hres, hp]
          simp [lookupConfig, hs, hres, hp, List.find?, happ,
            lookupConfig_find search service resource rest]

theorem isEmpty_false_of_ne (a : String) (h : a ≠ "") : a.isEmpty = false := by
  cases hi : a.isEmpty
  · rfl
  · exact absurd ((String.isEmpty_iff a).mp hi) h

/-- Claim C1 (code bug): `arn_config` is supposed to let a provided
`force_region`/`force_account` unconditionally replace the table-derived
boolean, but Python's `if force_region:` is falsy for `False`, so a
`false` flag is ignored.  First conjunct: with the default policy
`(true, true)`, `force_region = some false` still yields
`needs_region = true` (the claim demands `false`).  Second conjunct: a
rule saying `(true, true)` with both flags `false` still yields
`(true, true)`.  Third conjunct: the `true` direction does work — a rule
saying `(false, false)` with both flags `true` yields `(true, true)`. -/
theorem C1_force_false_ignored :
    arn_config strSearch [] "s3" "bucket" (some false) none = (true, true) ∧
    arn_config strSearch [⟨"s3", none, some true, some true⟩] "s3" "bucket"
      (some false) (some false) = (true, true) ∧
    arn_config strSearch [⟨"s3", none, some false, some false⟩] "s3" "bucket"
      (some true) (some true) = (true, true) :=
  ⟨rfl, rfl, rfl⟩

/-- Claim C3: rule matching in `arn_config`.  A rule applies to a
`(service, resource)` pair iff its service name equals the given service
exactly and (it has no resource pattern, or the pattern is found in the
resource string by the search oracle); rules whose service matches but
whose pattern does not are skipped, and the result of `arn_config`
(without force flags) is the region/account pair of the first fully
matching rule, each component defaulting to true when unspecified, or
`(true, true)` when no rule matches. -/
theorem C3_first_matching_rule (search : String → String → Bool) (cfg : List Rule)
    (service resource : String) :
    arn_config search cfg service resource none none =
      match cfg.find? (fun r => ruleApplies search r service resource) with
      | some r => (r.region.getD true, r.account.getD true)
      | none => (true, true) := by
  have h := lookupConfig_find search service resource cfg
  simpa [arn_config, applyForce] using h

/-- Claim C4: for every `(service, resource)` pair for which no rule in
the table applies (in particular any service absent from the table),
`arn_config` with no force flags returns `(true, true)`. -/
theorem C4_no_match_defaults (search : String → String → Bool) (cfg : List Rule)
    (service resource : String)
    (h : ∀ r ∈ cfg, ruleApplies search r service resource = false) :
    arn_config search cfg service resource none none = (true, true) := by
  have hf : cfg.find? (fun r => ruleApplies search r service resource) = none :=
    List.find?_eq_none.mpr (fun x hx => by simp [h x hx])
  have hl := lookupConfig_find search service resource cfg
  rw [hf] at hl
  simpa [arn_config, applyForce] using hl

theorem C4_no_match_defaults_witness :
    arn_config strSearch
      [⟨"s3", some "table/", none, none⟩, ⟨"dynamodb", none, some false, some false⟩]
      "s3" "bucket/x" none none = (true, true) :=
  C4_no_match_defaults strSearch _ "s3" "bucket/x" (by decide)

/-- Claim C10: `cloudformation` is not total on list inputs: the empty
resource list fails with an out-of-range index when `resource[0]` is
read for the policy lookup, while every string resource and every
non-empty list resource produces a join expression normally. -/
theorem C10_cloudformation_totality (search : String → String → Bool) (cfg : List Rule)
    (service : String) (fr fa : Option Bool) :
    cloudformation search cfg service (Sum.inr []) fr fa
        = Except.error "list index out of range" ∧
    (∀ s, ∃ j, cloudformation search cfg service (Sum.inl s) fr fa = Except.ok j) ∧
    (∀ p ps, ∃ j, cloudformation search cfg service (Sum.inr (p :: ps)) fr fa
        = Except.ok j) :=
  ⟨rfl, fun _ => ⟨_, rfl⟩, fun _ _ => ⟨_, rfl⟩⟩

/-- Claim C5: account normalization in the literal assembler.  When the
resolved policy requires an account: a directly supplied wildcard
account produces an empty account field; any other non-empty supplied
value is left-zero-padded to 12 characters; and an account obtained from
the credentials collaborator (profile path) is used exactly as supplied
by the collaborator, never padded. -/
theorem C5_account_normalization (search : String → String → Bool) (cfg : List Rule)
    (service resource : String) (region account profile partition : Option String)
    (fr fa : Option Bool) (sr sa : String)
    (hpol : (arn_config search cfg service resource fr fa).2 = true) :
    (account = some "*" →
      (arnParts search cfg service resource region account profile partition
        fr fa sr sa).1.account = some "") ∧
    (∀ a, account = some a → a ≠ "" → a ≠ "*" →
      (arnParts search cfg service resource region account profile partition
        fr fa sr sa).1.account = some (zeroPad12 a)) ∧
    (pyFalsy account = true → pyTruthy profile = true →
      (arnParts search cfg service resource region account profile partition
        fr fa sr sa).1.account = some sa) := by
  refine ⟨?_, ?_, ?_⟩
  · rintro rfl
    have hst : ("*" : String).isEmpty = false := rfl
    simp [arnParts, hpol, pyFalsy, hst]
  · rintro a rfl hne hstar
    have h1 : a.isEmpty = false := isEmpty_false_of_ne a hne
    simp [arnParts, hpol, pyFalsy, h1, hstar]
  · intro hf ht
    simp [arnParts, hpol, hf, ht]

theorem C5_account_normalization_witness :
    (arnParts strSearch [] "s3" "bucket/x" (some "us-east-1") (some "42")
      none none none none "" "sess").1.account = some "000000000042" ∧
    (arnParts strSearch [] "s3" "bucket/x" (some "us-east-1") (some "*")
      none none none none "" "sess").1.account = some "" ∧
    (arnParts strSearch [] "s3" "bucket/x" (some "us-east-1") none
      (some "dev") none none none "" "42").1.account = some "42" :=
  ⟨(C5_account_normalization strSearch [] "s3" "bucket/x" (some "us-east-1") (some "42")
      none none none none "" "sess" rfl).2.1 "42" rfl (by decide) (by decide),
   (C5_account_normalization strSearch [] "s3" "bucket/x" (some "us-east-1") (some "*")
      none none none none "" "sess" rfl).1 rfl,
   (C5_account_normalization strSearch [] "s3" "bucket/x" (some "us-east-1") none
      (some "dev") none none none "" "42" rfl).2.2 rfl rfl⟩

/-- Claim C6: when the resolved policy requires region and/or account,
no value for the required field is supplied (Python-falsy), and no
profile is given, `arn` without an error callback fails with a
`required` error naming exactly the missing fields, joined with `and`
when both are missing. -/
theorem C6_missing_required (search : String → String → Bool) (cfg : List Rule)
    (service resource : String) (region account profile partition : Option String)
    (fr fa : Option Bool) (sr sa : String)
    (hreg : pyFalsy region = true) (hacc : pyFalsy account = true)
    (hprof : pyTruthy profile = false) :
    (arn_config search cfg service resource fr fa = (true, true) →
      arn search cfg service resource region account profile partition fr fa sr sa false
        = Except.error "Error: region and account required") ∧
    (arn_config search cfg service resource fr fa = (true, false) →
      arn search cfg service resource region account profile partition fr fa sr sa false
        = Except.error "Error: region required") ∧
    (arn_config search cfg service resource fr fa = (false, true) →
      arn search cfg service resource region account profile partition fr fa sr sa false
        = Except.error "Error: account required") := by
  refine ⟨fun h => ?_, fun h => ?_, fun h => ?_⟩ <;>
    simp [arn, arnParts, h, hreg, hacc, hprof, String.intercalate] <;> rfl

theorem C6_missing_required_witness :
    arn strSearch [] "s3" "bucket/x" none none none none none none "" "" false
      = Except.error "Error: region and account required" :=
  (C6_missing_required strSearch [] "s3" "bucket/x" none none none none none none
    "" "" rfl rfl rfl).1 rfl

/-- Claim C7: for a service/resource whose resolved policy requires both
region and account, `cloudformation` returns a join-with-empty-separator
node whose fragment list is exactly `arn:`, the partition reference,
`:{service}:`, the region reference, `:`, the account reference, `:`,
followed by the normalized resource parts in order, unchanged. -/
theorem C7_fragments (search : String → String → Bool) (cfg : List Rule)
    (service : String) (resource : Sum String (List CfnPart))
    (fr fa : Option Bool) (p : CfnPart) (ps : List CfnPart)
    (hnorm : normalizeResource resource = p :: ps)
    (hpol : arn_config search cfg service (resourceForConfig p) fr fa = (true, true)) :
    cloudformation search cfg service resource fr fa =
      Except.ok ⟨"",
        [CfnPart.lit "arn:", CfnPart.ref "AWS::Partition",
          CfnPart.lit (":" ++ service ++ ":"), CfnPart.ref "AWS::Region", CfnPart.lit ":",
          CfnPart.ref "AWS::AccountId", CfnPart.lit ":"] ++ (p :: ps)⟩ := by
  unfold cloudformation
  rw [hnorm]
  simp [hpol]

theorem C7_fragments_witness :
    cloudformation strSearch [] "s3" (Sum.inl "bucket/x") none none =
      Except.ok ⟨"",
        [CfnPart.lit "arn:", CfnPart.ref "AWS::Partition", CfnPart.lit ":s3:",
          CfnPart.ref "AWS::Region", CfnPart.lit ":", CfnPart.ref "AWS::AccountId",
          CfnPart.lit ":", CfnPart.lit "bucket/x"]⟩ := by
  exact C7_fragments strSearch [] "s3" (Sum.inl "bucket/x") none none
    (CfnPart.lit "bucket/x") [] rfl rfl

/-- Claim C9 (implicit): when an error callback is supplied and returns
normally, `arn` does not abort after reporting missing required fields:
it still returns the formatted identifier, with the unresolved `None`
values interpolated literally as the text `None`. -/
theorem C9_on_error_continues (search : String → String → Bool) (cfg : List Rule)
    (service resource : String) (partition : Option String)
    (fr fa : Option Bool) (sr sa : String)
    (hpol : arn_config search cfg service resource fr fa = (true, true)) :
    arn search cfg service resource none none none partition fr fa sr sa true =
      Except.ok ("arn:" ++ pyOrStr partition "aws" ++ ":" ++ service ++ ":" ++ "None"
        ++ ":" ++ "None" ++ ":" ++ resource) := by
  unfold arn arnParts
  simp [hpol, pyFalsy, pyTruthy, renderArn, optStr]

theorem C9_on_error_continues_witness :
    arn strSearch [] "s3" "bucket/x" none none none none none none "" "" true
      = Except.ok "arn:aws:s3:None:None:bucket/x" := by
  exact C9_on_error_continues strSearch [] "s3" "bucket/x" none none none "" "" rfl

/-- Claim C2 fails as stated: an identifier produced by `arn` with a
non-empty region that itself contains a colon is not recovered by
`split` — here region `u:s` comes back as `u`, with the account and
resource fields shifted. -/
theorem C2_colon_field_counterexample :
    arn strSearch [] "s3" "bucket" (some "u:s") (some "123456789012")
      none none none none "" "" false
      = Except.ok "arn:aws:s3:u:s:123456789012:bucket" ∧
    split "arn:aws:s3:u:s:123456789012:bucket"
      = Except.ok ⟨"aws", "s3", "u", "s", "123456789012:bucket"⟩ ∧
    ("u" : String) ≠ "u:s" :=
  ⟨rfl, rfl, by decide⟩

/-- Claim C2 (amended): for every identifier produced by `arn` whose
assembled partition, service, region and account fields contain no
colon, with region and account non-empty, `split` recovers exactly the
five assembled fields; the resource field (recovered verbatim) may
contain colons. -/
theorem C2_roundtrip (search : String → String → Bool) (cfg : List Rule)
    (service resource : String) (region account profile partition : Option String)
    (fr fa : Option Bool) (sr sa : String) (out r a : String)
    (hok : arn search cfg service resource region account profile partition fr fa sr sa false
      = Except.ok out)
    (hr : (arnParts search cfg service resource region account profile partition
      fr fa sr sa).1.region = some r)
    (ha : (arnParts search cfg service resource region account profile partition
      fr fa sr sa).1.account = some a)
    (hrne : r ≠ "") (hane : a ≠ "")
    (hPc : ':' ∉ (pyOrStr partition "aws").data) (hSc : ':' ∉ service.data)
    (hRc : ':' ∉ r.data) (hAc : ':' ∉ a.data) :
    split out = Except.ok ⟨pyOrStr partition "aws", service, r, a, resource⟩ := by
  have hout : renderArn (arnParts search cfg service resource region account profile
      partition fr fa sr sa).1 = out := by
    unfold arn at hok
    simp only [Bool.or_false] at hok
    split at hok
    · exact Except.ok.inj hok
    · exact Except.noConfusion hok
  have hparts : (arnParts search cfg service resource region account profile
      partition fr fa sr sa).1
      = ⟨pyOrStr partition "aws", service,
          (arnParts search cfg service resource region account profile
            partition fr fa sr sa).1.region,
          (arnParts search cfg service resource region account profile
            partition fr fa sr sa).1.account, resource⟩ := rfl
  rw [← hout, hparts, hr, ha]
  show split ("arn:" ++ pyOrStr partition "aws" ++ ":" ++ service ++ ":" ++ r ++ ":"
    ++ a ++ ":" ++ resource) = _
  exact split_render _ _ _ _ _ hPc hSc hRc hAc

theorem C2_roundtrip_witness :
    split "arn:aws:s3:us-east-1:000000000042:bucket/my:file"
      = Except.ok ⟨"aws", "s3", "us-east-1", "000000000042", "bucket/my:file"⟩ := by
  exact C2_roundtrip strSearch [] "s3" "bucket/my:file" (some "us-east-1") (some "42")
    none none none none "" "" "arn:aws:s3:us-east-1:000000000042:bucket/my:file"
    "us-east-1" "000000000042" rfl rfl rfl (by decide) (by decide)
    (by decide) (by decide) (by decide) (by decide)

/-- Claim C8: `split` fails with the malformed-identifier condition on
every input with fewer than five colons; on inputs with at least five
colons it succeeds, and any successful result comes from splitting on
`:` with at most five cuts: the input is the discarded colon-free
leading segment followed by the four colon-free fields and the resource
remainder (which keeps any further colons verbatim). -/
theorem C8_split_spec (s : String) :
    (countSep ':' s.data < 5 → split s = Except.error "malformed identifier") ∧
    (5 ≤ countSep ':' s.data → ∃ t, split s = Except.ok t) ∧
    (∀ t, split s = Except.ok t →
      ':' ∉ t.partition.data ∧ ':' ∉ t.service.data ∧ ':' ∉ t.region.data ∧
        ':' ∉ t.account.data ∧
      ∃ head, ':' ∉ head.data ∧
        s = head ++ ":" ++ t.partition ++ ":" ++ t.service ++ ":" ++ t.region ++ ":"
          ++ t.account ++ ":" ++ t.resource) := by
  have hlen := pySplitChars_length ':' 5 s.data
  refine ⟨fun hlt => ?_, fun hge => ?_, fun t hok => ?_⟩
  · unfold split pySplit
    apply tupleOfParts_of_len_ne
    rw [List.length_map]
    omega
  · unfold split pySplit
    apply tupleOfParts_of_len_eq
    rw [List.length_map]
    omega
  · unfold split pySplit at hok
    obtain ⟨head, hparts⟩ := tupleOfParts_ok_shape _ t hok
    have hL : pySplitChars ':' 5 s.data
        = [head.data, t.partition.data, t.service.data, t.region.data,
            t.account.data, t.resource.data] := by
      have h1 : ((pySplitChars ':' 5 s.data).map String.mk).map String.data
          = pySplitChars ':' 5 s.data := by
        rw [List.map_map]
        exact List.map_id _
      rw [← h1, hparts]
      rfl
    have hnos := pySplitChars_dropLast_noSep ':' 5 s.data
    rw [hL] at hnos
    have hjoin := joinSep_pySplitChars ':' 5 s.data
    rw [hL] at hjoin
    refine ⟨hnos _ (by simp [dropLast_cons_cons]), hnos _ (by simp [dropLast_cons_cons]),
      hnos _ (by simp [dropLast_cons_cons]), hnos _ (by simp [dropLast_cons_cons]),
      head, hnos _ (by simp [dropLast_cons_cons]), ?_⟩
    refine string_ext _ _ ?_
    rw [← hjoin]
    simp [joinSep, data_append, List.append_assoc]

theorem C8_split_spec_witness :
    split "ab" = Except.error "malformed identifier" ∧
    ∃ t, split "arn:aws:s3:us-east-1:123:b" = Except.ok t :=
  ⟨(C8_split_spec "ab").1 (by decide),
   (C8_split_spec "arn:aws:s3:us-east-1:123:b").2.1 (by decide)⟩

end AwsArn
